import Mathlib

/-
Verification of the SoloLF progression and reward model.

The repository is a fitness-gamification client (quest board, workout
logging, hunter profile, achievements) whose core business rules live in
a backend progression engine; the frontend screens under
src/frontend/src are thin views over it.  The definitions below embed,
on one hand, the frontend logic that is present in the repository
(workout-input validation in WorkoutDungeonScreen, the XP bar width in
QuestBoardScreen and HunterProfileScreen), and on the other hand the
core operations of the progression engine, modelled from the spec where
the backend file is not part of the sources.
-/

set_option maxHeartbeats 1000000

/-- Status of a quest instance: it is either still active or already
completed.  Matches the string field status of the frontend Quest
record, which only ever compares it against the value active. -/
inductive QuestStatus
  | active
  | completed
  deriving DecidableEq, Repr

/-- Error kinds of the core, from spec section 7. -/
inductive CoreError
  | NotFoundError
  | InvalidStateError
  | ValidationError
  | ConflictError
  deriving DecidableEq, Repr

/-- Avatar tiers, from spec section 4.3 and the switch in
getAvatarColor of HunterProfileScreen.tsx. -/
inductive AvatarTier
  | Bronze
  | Silver
  | Gold
  | Diamond
  | Shadow
  deriving DecidableEq, Repr

/-- A quest template of the catalog, from spec section 3: immutable
exercise type, target value and rewards. -/
structure QuestTemplate where
  exercise_type : String
  title : String
  description : String
  target_value : Nat
  xp_reward : Nat
  gold_reward : Nat
  deriving DecidableEq, Repr, Inhabited

/-- A quest instance, with the fields of the frontend Quest interface
of QuestBoardScreen.tsx and WorkoutDungeonScreen (id, title,
description, exercise_type, target_value, current_progress, xp_reward,
gold_reward, status), plus the version field required by the
concurrency model of spec section 5 for the optimistic
compare-and-swap. -/
structure QuestInstance where
  id : Nat
  exercise_type : String
  title : String
  description : String
  target_value : Nat
  current_progress : Nat
  xp_reward : Nat
  gold_reward : Nat
  status : QuestStatus
  version : Nat
  deriving DecidableEq, Repr

/-- A reward event: the XP and gold payload emitted exactly once when a
quest or achievement completes (spec glossary). -/
structure RewardEvent where
  xp : Nat
  gold : Nat
  deriving DecidableEq, Repr

/-- The user progression record, from spec section 3. -/
structure UserProgression where
  level : Nat
  xp : Nat
  xp_to_next_level : Nat
  gold : Nat
  strength : Nat
  agility : Nat
  stamina : Nat
  vitality : Nat
  total_quests_completed : Nat
  total_workouts : Nat
  current_streak : Nat
  avatar_tier : AvatarTier
  deriving DecidableEq, Repr

/-- Design-time parameters of the progression engine, from spec
sections 4.3 and 9: the exponential XP curve (as a function of the new
level), the fixed per-level stat increment, and the tier breakpoint
function.  The spec leaves the exact constants open, so they are
configuration here. -/
structure Params where
  curve : Nat → Nat
  statInc : Nat
  tierOf : Nat → AvatarTier

/-- Modelled from the spec: applyWorkout of the Workout Event Processor
(spec section 4.2); the backend server.py implementing it is not among
the sources.  Precondition active and positive amount, progress clamped
to min (current_progress + amount) target_value, one-time
edge-triggered completion; the Bool of the result is the completed
flag, and InvalidStateError and ValidationError are raised exactly as
section 7 describes. -/
def applyWorkout (q : QuestInstance) (amount : Nat) :
    Except CoreError (QuestInstance × Bool) :=
  if q.status = QuestStatus.active then
    if 0 < amount then
      let new_progress := min (q.current_progress + amount) q.target_value
      if q.target_value ≤ new_progress then
        Except.ok ({ q with current_progress := new_progress,
                            status := QuestStatus.completed }, true)
      else
        Except.ok ({ q with current_progress := new_progress }, false)
    else Except.error CoreError.ValidationError
  else Except.error CoreError.InvalidStateError

/-- One workout submission seen as a state transformer: a failed
applyWorkout leaves the instance unchanged (spec section 7, no
mutation on failure). -/
def stepWorkout (q : QuestInstance) (amount : Nat) : QuestInstance :=
  match applyWorkout q amount with
  | Except.ok (q2, _) => q2
  | Except.error _ => q

/-- A sequence of workout submissions applied to an instance. -/
def runWorkouts (q : QuestInstance) (amounts : List Nat) : QuestInstance :=
  amounts.foldl stepWorkout q

/-- Modelled from the spec: one iteration of the leveling loop of
applyReward (spec section 4.3): subtract xp_to_next_level from xp,
increment level, recompute xp_to_next_level via the curve, add the
fixed increment to each of the four stats, and recompute the avatar
tier from the new level. -/
def levelStep (p : Params) (u : UserProgression) : UserProgression :=
  { u with
    xp := u.xp - u.xp_to_next_level
    level := u.level + 1
    xp_to_next_level := p.curve (u.level + 1)
    strength := u.strength + p.statInc
    agility := u.agility + p.statInc
    stamina := u.stamina + p.statInc
    vitality := u.vitality + p.statInc
    avatar_tier := p.tierOf (u.level + 1) }

/-- Modelled from the spec: the while loop of applyReward, written with
explicit fuel so that the function is total; applyReward always
supplies more fuel than the loop can consume, because each iteration
strictly decreases xp when the curve is positive. -/
def levelLoop (p : Params) : Nat → UserProgression → UserProgression
  | 0, u => u
  | fuel + 1, u =>
    if u.xp_to_next_level ≤ u.xp then levelLoop p fuel (levelStep p u) else u

/-- Modelled from the spec: applyReward of the Progression Engine (spec
section 4.3); the backend server.py implementing it is not among the
sources.  Adds the reward XP and gold, counts the completed quest, then
runs the leveling loop. -/
def applyReward (p : Params) (u : UserProgression) (r : RewardEvent) :
    UserProgression :=
  levelLoop p (u.xp + r.xp + 1)
    { u with
      xp := u.xp + r.xp
      gold := u.gold + r.gold
      total_quests_completed := u.total_quests_completed + 1 }

/-- Total XP consumed by climbing k consecutive level thresholds,
starting at the given level with the given current threshold and
continuing along the curve.  This is the independent arithmetic
description against which the loop is checked. -/
def thresholdSum (curve : Nat → Nat) : Nat → Nat → Nat → Nat
  | _, _, 0 => 0
  | level, tonl, k + 1 => tonl + thresholdSum curve (level + 1) (curve (level + 1)) k

/-- The store the request-handling layer operates on: the user record
plus the quest instances of that user (spec section 6, persisted-state
shape restricted to one user). -/
structure Store where
  user : UserProgression
  quests : List QuestInstance
  deriving Repr

/-- Modelled from the spec: the atomic read-check-update-emit unit of a
workout submission (spec sections 4.2, 5 and 6): look the instance up
by id (NotFoundError when absent), compare the version the caller
observed against the stored one (ConflictError on mismatch, spec
section 5 optimistic compare-and-swap), apply the workout, write the
instance back with a bumped version, and on the completion edge apply
the reward to the user.  The Bool of the result records whether a
reward event was emitted. -/
def logWorkout (p : Params) (s : Store) (qid obsVersion amount : Nat) :
    Except CoreError (Store × Bool) :=
  match s.quests.find? (fun x => x.id == qid) with
  | none => Except.error CoreError.NotFoundError
  | some q =>
    if q.version = obsVersion then
      match applyWorkout q amount with
      | Except.error e => Except.error e
      | Except.ok (q2, completedNow) =>
        let q3 := { q2 with version := q2.version + 1 }
        let quests2 := s.quests.map (fun x => if x.id == qid then q3 else x)
        if completedNow then
          Except.ok ({ user := applyReward p s.user ⟨q.xp_reward, q.gold_reward⟩,
                       quests := quests2 }, true)
        else
          Except.ok ({ s with quests := quests2 }, false)
    else Except.error CoreError.ConflictError

/-- The request-handling boundary around logWorkout (spec sections 6
and 7): a failure is surfaced as a rejected operation and the state
handed back is the state from before the call. -/
def handleWorkout (p : Params) (s : Store) (qid obsVersion amount : Nat) :
    Store × Bool × Option CoreError :=
  match logWorkout p s qid obsVersion amount with
  | Except.ok (s2, emitted) => (s2, emitted, none)
  | Except.error e => (s, false, some e)

/-- Modelled from the spec: instantiation of a template as a fresh
active quest instance with current_progress 0 (spec section 4.1). -/
def instantiate (t : QuestTemplate) (id : Nat) : QuestInstance :=
  { id := id
    exercise_type := t.exercise_type
    title := t.title
    description := t.description
    target_value := t.target_value
    current_progress := 0
    xp_reward := t.xp_reward
    gold_reward := t.gold_reward
    status := QuestStatus.active
    version := 0 }

/-- Modelled from the spec: generateDaily of the Quest Instance Manager
(spec section 4.1); the backend server.py implementing it is not among
the sources.  Draws 3 templates with replacement from the catalog (the
random draws are modelled by the function draw giving the raw index of
each draw, reduced modulo the catalog size) and fails with
ValidationError on an empty catalog, creating no instances. -/
def generateDaily (catalog : List QuestTemplate) (draw : Nat → Nat) :
    Except CoreError (List QuestInstance) :=
  if catalog.isEmpty then Except.error CoreError.ValidationError
  else Except.ok ((List.range 3).map (fun i =>
    instantiate (catalog.getD (draw i % catalog.length) default) i))

/-- An achievement template, restricted to the fields the evaluator
needs (spec sections 3 and 4.4; full field list in the Achievement
interface of the AchievementsScreen source). -/
structure Achievement where
  requirement_value : Nat
  xp_reward : Nat
  gold_reward : Nat
  deriving DecidableEq, Repr

/-- Per-user achievement progress, from spec section 3 and the
UserAchievement interface of the AchievementsScreen source:
current_progress, completed, nullable unlocked_at (a timestamp,
modelled as a number). -/
structure UserAchievementProgress where
  current_progress : Nat
  completed : Bool
  unlocked_at : Option Nat
  deriving DecidableEq, Repr

/-- Requirement categories of spec section 4.4: threshold requirements
take the max of old and computed progress, count requirements
accumulate. -/
inductive ReqMode
  | threshold
  | counter
  deriving DecidableEq, Repr

/-- Progress update rule per requirement mode (spec section 4.4). -/
def applyProgress : ReqMode → Nat → Nat → Nat
  | ReqMode.threshold, old, c => max old c
  | ReqMode.counter, old, c => old + c

/-- Modelled from the spec: one Achievement Evaluator update (spec
section 4.4); the backend server.py implementing it is not among the
sources.  Updates current_progress monotonically and, when the
requirement is reached and the record is not already completed, sets
completed, stamps unlocked_at with the current time and emits the
achievement reward exactly on that edge. -/
def updateAchievement (mode : ReqMode) (a : Achievement)
    (ua : UserAchievementProgress) (contrib now : Nat) :
    UserAchievementProgress × Option RewardEvent :=
  let progress2 := applyProgress mode ua.current_progress contrib
  if a.requirement_value ≤ progress2 ∧ ua.completed = false then
    ({ current_progress := progress2, completed := true, unlocked_at := some now },
      some ⟨a.xp_reward, a.gold_reward⟩)
  else
    ({ ua with current_progress := progress2 }, none)

/-- A whole trace of evaluator updates against one record, returning
the final record and the number of reward events emitted along the
trace. -/
def runUpdates (a : Achievement) :
    List (ReqMode × Nat × Nat) → UserAchievementProgress →
    UserAchievementProgress × Nat
  | [], ua => (ua, 0)
  | (m, c, t) :: rest, ua =>
    let step := updateAchievement m a ua c t
    let next := runUpdates a rest step.1
    (next.1, (if step.2.isSome then 1 else 0) + next.2)

/-- Decimal digit run at the front of a character list. -/
def decDigits (cs : List Char) : List Char := cs.takeWhile Char.isDigit

/-- Value of a run of decimal digits. -/
def decValue (ds : List Char) : Nat :=
  ds.foldl (fun acc c => 10 * acc + (c.toNat - 48)) 0

/-- Hexadecimal digit test, by code point. -/
def isHexDigitChar (c : Char) : Bool :=
  c.isDigit || (97 ≤ c.toNat && c.toNat ≤ 102) || (65 ≤ c.toNat && c.toNat ≤ 70)

/-- Value of one hexadecimal digit. -/
def hexDigitVal (c : Char) : Nat :=
  if c.isDigit then c.toNat - 48
  else if 97 ≤ c.toNat then c.toNat - 87
  else c.toNat - 55

/-- Value of a run of hexadecimal digits. -/
def hexValue (ds : List Char) : Nat :=
  ds.foldl (fun acc c => 16 * acc + hexDigitVal c) 0

/-- Magnitude part of the JavaScript parseInt called with no radix
argument, after whitespace and sign have been taken off: a string
beginning 0x or 0X is read as the longest run of hexadecimal digits,
anything else as the longest run of decimal digits; no digits at all
gives NaN, modelled as none. -/
def parseDigitsJS (cs : List Char) : Option Nat :=
  match cs with
  | '0' :: 'x' :: rest =>
    match rest.takeWhile isHexDigitChar with
    | [] => none
    | ds => some (hexValue ds)
  | '0' :: 'X' :: rest =>
    match rest.takeWhile isHexDigitChar with
    | [] => none
    | ds => some (hexValue ds)
  | _ =>
    match decDigits cs with
    | [] => none
    | ds => some (decValue ds)

/-- Embedding of the JavaScript parseInt(s) call of submitWorkout in
WorkoutDungeonScreen: strip leading whitespace, read an optional sign,
then the longest digit run; none models NaN. -/
def parseIntJS (s : String) : Option Int :=
  let cs := s.data.dropWhile Char.isWhitespace
  match cs with
  | '+' :: rest => (parseDigitsJS rest).map (fun n => (n : Int))
  | '-' :: rest => (parseDigitsJS rest).map (fun n => -(n : Int))
  | _ => (parseDigitsJS cs).map (fun n => (n : Int))

/-- The two alert messages of the validation part of submitWorkout. -/
inductive AlertMsg
  | enterWorkoutValue
  | enterValidNumber
  deriving DecidableEq, Repr

/-- Observable outcome of the validation part of submitWorkout: either
an error alert with no network request and no state change, or the
workout-log request for the selected quest with the parsed value. -/
inductive SubmitOutcome
  | errorAlert (msg : AlertMsg)
  | sendRequest (quest_id : Nat) (value : Int)
  deriving DecidableEq, Repr

/-- Embedding of the validation logic of submitWorkout in
WorkoutDungeonScreen: reject when no quest is selected or the input
string is empty, then parse with parseInt and reject NaN and values
not strictly positive; only then is the workout-log request issued. -/
def submitWorkout (selectedQuest : Option QuestInstance)
    (workoutValue : String) : SubmitOutcome :=
  match selectedQuest with
  | none => SubmitOutcome.errorAlert AlertMsg.enterWorkoutValue
  | some q =>
    if workoutValue = "" then SubmitOutcome.errorAlert AlertMsg.enterWorkoutValue
    else
      match parseIntJS workoutValue with
      | none => SubmitOutcome.errorAlert AlertMsg.enterValidNumber
      | some v =>
        if v ≤ 0 then SubmitOutcome.errorAlert AlertMsg.enterValidNumber
        else SubmitOutcome.sendRequest q.id v

/-- The part of the authenticated user object the XP bar reads; the
user may be absent (null), and the two fields are the non-negative
numbers of the data model. -/
structure UserView where
  xp : Nat
  xp_to_next_level : Nat
  deriving DecidableEq, Repr

/-- Embedding of the JavaScript expression user?.xp || 0 of the XP bar
in QuestBoardScreen.tsx and HunterProfileScreen.tsx. -/
def xpOrZero : Option UserView → Nat
  | none => 0
  | some u => u.xp

/-- Embedding of the JavaScript expression user?.xp_to_next_level ||
100: a falsy field value, which for a non-negative number means 0 or
an absent user, is replaced by 100. -/
def xpToNextOr100 : Option UserView → Nat
  | none => 100
  | some u => if u.xp_to_next_level = 0 then 100 else u.xp_to_next_level

/-- Denominator of the XP bar fill expression. -/
def xpDenom (u : Option UserView) : Nat := xpOrZero u + xpToNextOr100 u

/-- Embedding of the XP bar width expression of QuestBoardScreen.tsx
line 170 and HunterProfileScreen.tsx line 93:
the percentage (xp / (xp + xp_to_next_level-or-100)) * 100. -/
def xpBarWidth (u : Option UserView) : ℚ :=
  (xpOrZero u : ℚ) / (xpDenom u : ℚ) * 100

/-- Concrete engine parameters for witnesses: curve base 100 and growth
factor 2 (new users start with xp_to_next_level 100 per the backend
test log), stat increment 2, and example tier breakpoints. -/
def exampleParams : Params :=
  { curve := fun level => 100 * 2 ^ (level - 1)
    statInc := 2
    tierOf := fun level =>
      if level < 5 then AvatarTier.Bronze
      else if level < 10 then AvatarTier.Silver
      else if level < 20 then AvatarTier.Gold
      else if level < 35 then AvatarTier.Diamond
      else AvatarTier.Shadow }

/-- Concrete user for witnesses: the level-1 user of the spec section 8
scenario, with xp 90 and xp_to_next_level 100. -/
def exampleUser : UserProgression :=
  { level := 1
    xp := 90
    xp_to_next_level := 100
    gold := 5
    strength := 10
    agility := 10
    stamina := 10
    vitality := 10
    total_quests_completed := 0
    total_workouts := 0
    current_streak := 0
    avatar_tier := AvatarTier.Bronze }

/-- Concrete reward for witnesses: the 50 XP reward of the spec
section 8 scenario. -/
def exampleReward : RewardEvent := { xp := 50, gold := 25 }

/-- Concrete active quest instance for witnesses: target 10 with
progress 6, as in the spec section 8 two-workouts scenario. -/
def exampleActiveQuest : QuestInstance :=
  { id := 1
    exercise_type := "push_ups"
    title := "Shadow Push-ups"
    description := "Complete 10 push-ups"
    target_value := 10
    current_progress := 6
    xp_reward := 50
    gold_reward := 25
    status := QuestStatus.active
    version := 0 }

/-- Concrete fresh quest instance for witnesses: progress 0. -/
def exampleFreshQuest : QuestInstance :=
  { exampleActiveQuest with current_progress := 0 }

/-- Concrete completed quest instance for witnesses. -/
def exampleDoneQuest : QuestInstance :=
  { exampleActiveQuest with
    current_progress := 10
    status := QuestStatus.completed
    version := 3 }

/-- Concrete store holding the active quest. -/
def exampleStoreActive : Store :=
  { user := exampleUser, quests := [exampleActiveQuest] }

/-- Concrete store holding the completed quest. -/
def exampleStoreDone : Store :=
  { user := exampleUser, quests := [exampleDoneQuest] }

/-- Concrete quest template for witnesses. -/
def exampleTemplate : QuestTemplate :=
  { exercise_type := "running"
    title := "Morning Run"
    description := "Run 2 miles"
    target_value := 2
    xp_reward := 75
    gold_reward := 30 }

/-- Concrete catalog of templates for witnesses. -/
def exampleCatalog : List QuestTemplate := [exampleTemplate]

/-- Concrete achievement template for witnesses. -/
def exampleAchievement : Achievement :=
  { requirement_value := 10, xp_reward := 100, gold_reward := 50 }

/-- Concrete not-yet-completed achievement progress for witnesses. -/
def exampleUaFresh : UserAchievementProgress :=
  { current_progress := 4, completed := false, unlocked_at := none }

/-- One submission keeps the running invariant: if progress equals the
clamped running sum S, the submission of a further amount keeps
progress equal to the clamped sum S + a, keeps the target, and only
reaches completed when the target is already covered by S + a. -/
lemma stepWorkout_invariant (a S : Nat) (q : QuestInstance)
    (hcur : q.current_progress = min S q.target_value)
    (hdone : q.status = QuestStatus.completed → q.target_value ≤ S) :
    (stepWorkout q a).current_progress = min (S + a) q.target_value ∧
    (stepWorkout q a).target_value = q.target_value ∧
    ((stepWorkout q a).status = QuestStatus.completed → q.target_value ≤ S + a) := by
  cases hq : q.status with
  | active =>
    by_cases ha : 0 < a
    · by_cases hcomp : q.target_value ≤ min (q.current_progress + a) q.target_value
      · have hstep : stepWorkout q a =
            { q with current_progress := min (q.current_progress + a) q.target_value,
                     status := QuestStatus.completed } := by
          simp [stepWorkout, applyWorkout, hq, ha, hcomp]
        rw [hstep]
        refine ⟨?_, rfl, ?_⟩
        · simp only [hcur]; omega
        · intro _; rw [hcur] at hcomp; omega
      · have hstep : stepWorkout q a =
            { q with current_progress := min (q.current_progress + a) q.target_value } := by
          simp [stepWorkout, applyWorkout, hq, ha, hcomp]
        rw [hstep]
        refine ⟨?_, rfl, ?_⟩
        · simp only [hcur]; omega
        · intro hc; simp only [hq] at hc; cases hc
    · have ha0 : a = 0 := by omega
      have hstep : stepWorkout q a = q := by
        simp [stepWorkout, applyWorkout, hq, ha]
      rw [hstep, ha0]
      exact ⟨by simpa using hcur, rfl, fun hc => by simp [hq] at hc⟩
  | completed =>
    have hstep : stepWorkout q a = q := by
      simp [stepWorkout, applyWorkout, hq]
    have ht : q.target_value ≤ S := hdone hq
    rw [hstep]
    refine ⟨?_, rfl, fun _ => by omega⟩
    rw [hcur]; omega

/-- Folding a whole list of submissions keeps progress equal to the
clamped running sum. -/
lemma runWorkouts_min (amounts : List Nat) :
    ∀ (S : Nat) (q : QuestInstance),
      q.current_progress = min S q.target_value →
      (q.status = QuestStatus.completed → q.target_value ≤ S) →
      (runWorkouts q amounts).current_progress = min (S + amounts.sum) q.target_value ∧
      (runWorkouts q amounts).target_value = q.target_value := by
  induction amounts with
  | nil =>
    intro S q hcur _
    exact ⟨by simpa [runWorkouts] using hcur, rfl⟩
  | cons a rest ih =>
    intro S q hcur hdone
    have h := stepWorkout_invariant a S q hcur hdone
    have h2 := ih (S + a) (stepWorkout q a)
      (by rw [h.2.1]; exact h.1) (by intro hc; rw [h.2.1]; exact h.2.2 hc)
    have e : runWorkouts q (a :: rest) = runWorkouts (stepWorkout q a) rest := rfl
    refine ⟨?_, ?_⟩
    · rw [e, h2.1, h.2.1, List.sum_cons]
      omega
    · rw [e, h2.2, h.2.1]

/-- C1: for every active quest instance and every positive workout
amount, applyWorkout succeeds and sets progress to
min (current_progress + amount) target_value; and after any sequence
of applyWorkout submissions of positive amounts starting from progress
0 on an active instance, current_progress equals
min (sum of amounts) target_value and never exceeds the target. -/
theorem applyWorkout_progress_clamped
    (q : QuestInstance) (amount : Nat)
    (hact : q.status = QuestStatus.active) (hpos : 0 < amount)
    (q0 : QuestInstance) (amounts : List Nat)
    (hinit : q0.current_progress = 0) (hact0 : q0.status = QuestStatus.active)
    (hall : ∀ a ∈ amounts, 0 < a) :
    (∃ q2 c, applyWorkout q amount = Except.ok (q2, c) ∧
      q2.current_progress = min (q.current_progress + amount) q.target_value) ∧
    (runWorkouts q0 amounts).current_progress = min amounts.sum q0.target_value ∧
    (runWorkouts q0 amounts).current_progress ≤ q0.target_value := by
  have hrun := runWorkouts_min amounts 0 q0
    (by rw [hinit]; omega)
    (by intro hc; rw [hact0] at hc; cases hc)
  refine ⟨?_, ?_, ?_⟩
  · by_cases hcomp : q.target_value ≤ min (q.current_progress + amount) q.target_value
    · refine ⟨{ q with
          current_progress := min (q.current_progress + amount) q.target_value,
          status := QuestStatus.completed }, true, ?_, rfl⟩
      simp [applyWorkout, hact, hpos, hcomp]
    · refine ⟨{ q with
          current_progress := min (q.current_progress + amount) q.target_value }, false, ?_, rfl⟩
      simp [applyWorkout, hact, hpos, hcomp]
  · rw [hrun.1]; omega
  · rw [hrun.1]; omega

/-- Witness for C1 at the spec section 8 scenario: target 10, progress
6, one workout of 6, and the fresh-instance run of two workouts of 6. -/
theorem applyWorkout_progress_clamped_witness :
    (exampleActiveQuest.status = QuestStatus.active ∧ 0 < 6 ∧
      exampleFreshQuest.current_progress = 0 ∧
      exampleFreshQuest.status = QuestStatus.active ∧
      (∀ a ∈ ([6, 6] : List Nat), 0 < a)) ∧
    ((∃ q2 c, applyWorkout exampleActiveQuest 6 = Except.ok (q2, c) ∧
        q2.current_progress =
          min (exampleActiveQuest.current_progress + 6) exampleActiveQuest.target_value) ∧
      (runWorkouts exampleFreshQuest [6, 6]).current_progress =
        min ([6, 6] : List Nat).sum exampleFreshQuest.target_value ∧
      (runWorkouts exampleFreshQuest [6, 6]).current_progress ≤
        exampleFreshQuest.target_value) :=
  ⟨⟨rfl, by norm_num, rfl, rfl, by decide⟩,
    applyWorkout_progress_clamped exampleActiveQuest 6 rfl (by norm_num)
      exampleFreshQuest [6, 6] rfl rfl (by decide)⟩

/-- Full description of a run of the leveling loop with enough fuel:
some number k of thresholds is crossed, XP is conserved against the
sum of the crossed thresholds, the final xp lies strictly below the
final threshold, the threshold and the avatar tier are the ones
recomputed at the final level, each of the four stats grew by the
increment once per crossed threshold, and gold and the counters are
untouched by the loop. -/
lemma levelLoop_spec (p : Params) (hc : ∀ l, 0 < p.curve l) :
    ∀ (fuel : Nat) (u : UserProgression), u.xp < fuel → 0 < u.xp_to_next_level →
      ∃ k : Nat,
        (levelLoop p fuel u).level = u.level + k ∧
        (levelLoop p fuel u).xp + thresholdSum p.curve u.level u.xp_to_next_level k = u.xp ∧
        (levelLoop p fuel u).xp < (levelLoop p fuel u).xp_to_next_level ∧
        (levelLoop p fuel u).xp_to_next_level =
          (if k = 0 then u.xp_to_next_level else p.curve (u.level + k)) ∧
        (levelLoop p fuel u).strength = u.strength + p.statInc * k ∧
        (levelLoop p fuel u).agility = u.agility + p.statInc * k ∧
        (levelLoop p fuel u).stamina = u.stamina + p.statInc * k ∧
        (levelLoop p fuel u).vitality = u.vitality + p.statInc * k ∧
        (levelLoop p fuel u).gold = u.gold ∧
        (levelLoop p fuel u).total_quests_completed = u.total_quests_completed ∧
        (levelLoop p fuel u).avatar_tier =
          (if k = 0 then u.avatar_tier else p.tierOf (u.level + k)) := by
  intro fuel
  induction fuel with
  | zero => intro u hfu _; omega
  | succ fuel ih =>
    intro u hfu htonl
    by_cases hge : u.xp_to_next_level ≤ u.xp
    · have hloop : levelLoop p (fuel + 1) u = levelLoop p fuel (levelStep p u) := by
        simp [levelLoop, hge]
      have hxp2 : (levelStep p u).xp < fuel := by
        simp only [levelStep]
        omega
      have htonl2 : 0 < (levelStep p u).xp_to_next_level := hc _
      obtain ⟨k, h1, h2, h3, h4, h5, h6, h7, h8, h9, h10, h11⟩ :=
        ih (levelStep p u) hxp2 htonl2
      have e1 : (levelStep p u).level = u.level + 1 := rfl
      have e2 : (levelStep p u).xp = u.xp - u.xp_to_next_level := rfl
      have e3 : (levelStep p u).xp_to_next_level = p.curve (u.level + 1) := rfl
      have e4 : (levelStep p u).strength = u.strength + p.statInc := rfl
      have e5 : (levelStep p u).agility = u.agility + p.statInc := rfl
      have e6 : (levelStep p u).stamina = u.stamina + p.statInc := rfl
      have e7 : (levelStep p u).vitality = u.vitality + p.statInc := rfl
      have e8 : (levelStep p u).gold = u.gold := rfl
      have e9 : (levelStep p u).total_quests_completed = u.total_quests_completed := rfl
      have e10 : (levelStep p u).avatar_tier = p.tierOf (u.level + 1) := rfl
      simp only [e1, e2, e3, e4, e5, e6, e7, e8, e9, e10] at h1 h2 h3 h4 h5 h6 h7 h8 h9 h10 h11
      refine ⟨k + 1, ?_, ?_, ?_, ?_, ?_, ?_, ?_, ?_, ?_, ?_, ?_⟩ <;> rw [hloop]
      · omega
      · have e : thresholdSum p.curve u.level u.xp_to_next_level (k + 1) =
            u.xp_to_next_level +
              thresholdSum p.curve (u.level + 1) (p.curve (u.level + 1)) k := rfl
        omega
      · exact h3
      · rw [h4, if_neg (Nat.succ_ne_zero k)]
        by_cases hk : k = 0
        · subst hk; simp
        · rw [if_neg hk]
          congr 1
          omega
      · rw [h5]; ring
      · rw [h6]; ring
      · rw [h7]; ring
      · rw [h8]; ring
      · exact h9
      · exact h10
      · rw [h11, if_neg (Nat.succ_ne_zero k)]
        by_cases hk : k = 0
        · subst hk; simp
        · rw [if_neg hk]
          congr 1
          omega
    · have hloop : levelLoop p (fuel + 1) u = u := by
        simp [levelLoop, hge]
      refine ⟨0, ?_, ?_, ?_, ?_, ?_, ?_, ?_, ?_, ?_, ?_, ?_⟩ <;> rw [hloop] <;>
        first
          | omega
          | simp [thresholdSum]

/-- C2: a single applyReward call adds the reward XP and gold, counts
the quest, and runs the leveling loop: some number k of level
thresholds is crossed in this one call, the level advances by exactly
k, the crossed thresholds account exactly for the consumed XP, each of
the four stats grew by the fixed increment once per level, the final
threshold comes from the curve at the final level, and the remaining
xp lies in the interval from 0 up to but excluding the final
xp_to_next_level. -/
theorem applyReward_multi_level (p : Params) (u : UserProgression) (r : RewardEvent)
    (hc : ∀ l, 0 < p.curve l) (hlevel : 1 ≤ u.level)
    (htonl : 0 < u.xp_to_next_level) :
    ∃ k : Nat,
      (applyReward p u r).level = u.level + k ∧
      (applyReward p u r).xp + thresholdSum p.curve u.level u.xp_to_next_level k =
        u.xp + r.xp ∧
      (applyReward p u r).xp < (applyReward p u r).xp_to_next_level ∧
      (applyReward p u r).xp_to_next_level =
        (if k = 0 then u.xp_to_next_level else p.curve (u.level + k)) ∧
      (applyReward p u r).strength = u.strength + p.statInc * k ∧
      (applyReward p u r).agility = u.agility + p.statInc * k ∧
      (applyReward p u r).stamina = u.stamina + p.statInc * k ∧
      (applyReward p u r).vitality = u.vitality + p.statInc * k ∧
      (applyReward p u r).gold = u.gold + r.gold ∧
      (applyReward p u r).total_quests_completed = u.total_quests_completed + 1 := by
  obtain ⟨k, h1, h2, h3, h4, h5, h6, h7, h8, h9, h10, _⟩ :=
    levelLoop_spec p hc (u.xp + r.xp + 1)
      { u with xp := u.xp + r.xp, gold := u.gold + r.gold,
               total_quests_completed := u.total_quests_completed + 1 }
      (by simp) (by simpa using htonl)
  simp only at h1 h2 h3 h4 h5 h6 h7 h8 h9 h10
  exact ⟨k, h1, h2, h3, h4, h5, h6, h7, h8, h9, h10⟩

/-- Witness for C2 at the spec section 8 scenario: level 1, xp 90,
xp_to_next_level 100, reward of 50 XP. -/
theorem applyReward_multi_level_witness :
    ((∀ l, 0 < exampleParams.curve l) ∧ 1 ≤ exampleUser.level ∧
      0 < exampleUser.xp_to_next_level) ∧
    (∃ k : Nat,
      (applyReward exampleParams exampleUser exampleReward).level =
        exampleUser.level + k ∧
      (applyReward exampleParams exampleUser exampleReward).xp +
        thresholdSum exampleParams.curve exampleUser.level
          exampleUser.xp_to_next_level k =
        exampleUser.xp + exampleReward.xp ∧
      (applyReward exampleParams exampleUser exampleReward).xp <
        (applyReward exampleParams exampleUser exampleReward).xp_to_next_level ∧
      (applyReward exampleParams exampleUser exampleReward).xp_to_next_level =
        (if k = 0 then exampleUser.xp_to_next_level
          else exampleParams.curve (exampleUser.level + k)) ∧
      (applyReward exampleParams exampleUser exampleReward).strength =
        exampleUser.strength + exampleParams.statInc * k ∧
      (applyReward exampleParams exampleUser exampleReward).agility =
        exampleUser.agility + exampleParams.statInc * k ∧
      (applyReward exampleParams exampleUser exampleReward).stamina =
        exampleUser.stamina + exampleParams.statInc * k ∧
      (applyReward exampleParams exampleUser exampleReward).vitality =
        exampleUser.vitality + exampleParams.statInc * k ∧
      (applyReward exampleParams exampleUser exampleReward).gold =
        exampleUser.gold + exampleReward.gold ∧
      (applyReward exampleParams exampleUser exampleReward).total_quests_completed =
        exampleUser.total_quests_completed + 1) := by
  have hc : ∀ l, 0 < exampleParams.curve l := by
    intro l
    simp only [exampleParams]
    positivity
  exact ⟨⟨hc, by decide, by decide⟩,
    applyReward_multi_level exampleParams exampleUser exampleReward hc
      (by decide) (by decide)⟩

/-- C4: on every failure path of the workout submission (NotFoundError,
InvalidStateError, ValidationError, ConflictError), the request
boundary hands back exactly the state from before the call and no
reward event: no partial mutation, never progress without reward nor
reward without progress. -/
theorem failure_no_partial_mutation (p : Params) (s : Store)
    (qid obsVersion amount : Nat) (e : CoreError)
    (hfail : logWorkout p s qid obsVersion amount = Except.error e) :
    handleWorkout p s qid obsVersion amount = (s, false, some e) := by
  simp [handleWorkout, hfail]

/-- Witness for C4: a submission against an empty store fails with
NotFoundError and returns the untouched store. -/
theorem failure_no_partial_mutation_witness :
    logWorkout exampleParams { user := exampleUser, quests := [] } 1 0 5 =
      Except.error CoreError.NotFoundError ∧
    handleWorkout exampleParams { user := exampleUser, quests := [] } 1 0 5 =
      ({ user := exampleUser, quests := [] }, false, some CoreError.NotFoundError) :=
  ⟨rfl, failure_no_partial_mutation exampleParams
    { user := exampleUser, quests := [] } 1 0 5 CoreError.NotFoundError rfl⟩

/-- C3: a workout submission against a completed quest instance fails
with InvalidStateError, and the user xp and gold are unchanged by the
failed call. -/
theorem completed_workout_rejected (p : Params) (s : Store)
    (qid obsVersion amount : Nat) (q : QuestInstance)
    (hfind : s.quests.find? (fun x => x.id == qid) = some q)
    (hver : q.version = obsVersion)
    (hdone : q.status = QuestStatus.completed) :
    handleWorkout p s qid obsVersion amount =
      (s, false, some CoreError.InvalidStateError) ∧
    (handleWorkout p s qid obsVersion amount).1.user.xp = s.user.xp ∧
    (handleWorkout p s qid obsVersion amount).1.user.gold = s.user.gold := by
  have hlog : logWorkout p s qid obsVersion amount =
      Except.error CoreError.InvalidStateError := by
    simp [logWorkout, hfind, hver, applyWorkout, hdone]
  refine ⟨by simp [handleWorkout, hlog], ?_, ?_⟩ <;> simp [handleWorkout, hlog]

/-- Witness for C3: submitting against the completed example quest. -/
theorem completed_workout_rejected_witness :
    (exampleStoreDone.quests.find? (fun x => x.id == 1) = some exampleDoneQuest ∧
      exampleDoneQuest.version = 3 ∧
      exampleDoneQuest.status = QuestStatus.completed) ∧
    (handleWorkout exampleParams exampleStoreDone 1 3 5 =
      (exampleStoreDone, false, some CoreError.InvalidStateError) ∧
    (handleWorkout exampleParams exampleStoreDone 1 3 5).1.user.xp =
      exampleStoreDone.user.xp ∧
    (handleWorkout exampleParams exampleStoreDone 1 3 5).1.user.gold =
      exampleStoreDone.user.gold) :=
  ⟨⟨rfl, rfl, rfl⟩,
    completed_workout_rejected exampleParams exampleStoreDone 1 3 5
      exampleDoneQuest rfl rfl rfl⟩

/-- Updating the found instance in place keeps it findable: mapping the
conditional replacement over the list turns the first hit of the
search into the replacement. -/
lemma find_map_update (qid : Nat) (q3 : QuestInstance) (h3 : q3.id = qid) :
    ∀ (l : List QuestInstance) (q : QuestInstance),
      l.find? (fun x => x.id == qid) = some q →
      (l.map (fun x => if x.id == qid then q3 else x)).find?
        (fun x => x.id == qid) = some q3 := by
  intro l
  induction l with
  | nil => intro q h; simp at h
  | cons y ys ih =>
    intro q h
    cases hy : (y.id == qid) with
    | true =>
      have hyid : y.id = qid := by simpa using hy
      have hmap : (y :: ys).map (fun x => if x.id == qid then q3 else x) =
          q3 :: ys.map (fun x => if x.id == qid then q3 else x) := by
        simp [hyid]
      rw [hmap, List.find?_cons_of_pos _ (by simp [h3])]
    | false =>
      have hyid : ¬ y.id = qid := by simpa using hy
      have h2 : ys.find? (fun x => x.id == qid) = some q := by
        rw [List.find?_cons_of_neg _ (by simp [hyid])] at h
        exact h
      have hmap : (y :: ys).map (fun x => if x.id == qid then q3 else x) =
          y :: ys.map (fun x => if x.id == qid then q3 else x) := by
        simp [hyid]
      rw [hmap, List.find?_cons_of_neg _ (by simp [hyid])]
      exact ih q h2

/-- C7: two concurrent workout submissions against the same active
instance, each large enough to bring it to completion.  Spec section 5
requires the read-check-update-emit unit to be atomic, so every
interleaving is equivalent to running the two units in one of the two
serial orders; the statement quantifies over both amounts, hence covers
both orders.  The first unit succeeds and emits the single reward
event; the second fails with ConflictError when it carries the version
both observed before the race, and with InvalidStateError when it
re-reads and sees the completed instance; either way it leaves the
state exactly as the first unit left it, so exactly one reward event
is emitted and the two units never both observe the active status. -/
theorem concurrent_completion_single_reward (p : Params) (s : Store)
    (qid obsVersion a b : Nat) (q : QuestInstance)
    (hfind : s.quests.find? (fun x => x.id == qid) = some q)
    (hact : q.status = QuestStatus.active) (hver : q.version = obsVersion)
    (ha : 0 < a) (hta : q.target_value ≤ q.current_progress + a)
    (hb : 0 < b) (htb : q.target_value ≤ q.current_progress + b) :
    ∃ s1 : Store,
      handleWorkout p s qid obsVersion a = (s1, true, none) ∧
      handleWorkout p s1 qid obsVersion b =
        (s1, false, some CoreError.ConflictError) ∧
      handleWorkout p s1 qid (obsVersion + 1) b =
        (s1, false, some CoreError.InvalidStateError) := by
  have hqid : q.id = qid := by
    have := List.find?_some hfind
    simpa using this
  have hcond : q.target_value ≤ min (q.current_progress + a) q.target_value := by
    omega
  have hA : applyWorkout q a =
      Except.ok ({ q with
        current_progress := min (q.current_progress + a) q.target_value,
        status := QuestStatus.completed }, true) := by
    simp [applyWorkout, hact, ha, hcond]
  set q3 : QuestInstance := { q with
    current_progress := min (q.current_progress + a) q.target_value,
    status := QuestStatus.completed,
    version := q.version + 1 } with hq3
  set s1 : Store := ⟨applyReward p s.user ⟨q.xp_reward, q.gold_reward⟩, s.quests.map (fun x => if x.id == qid then q3 else x)⟩ with hs1
  have hlog1 : logWorkout p s qid obsVersion a = Except.ok (s1, true) := by
    simp [logWorkout, hfind, hver, hA, hq3, hs1]
  have hfind1 : s1.quests.find? (fun x => x.id == qid) = some q3 := by
    rw [hs1]
    exact find_map_update qid q3 (by rw [hq3]; exact hqid) s.quests q hfind
  have hv3 : q3.version = obsVersion + 1 := by rw [hq3]; simp [hver]
  have hlog2 : logWorkout p s1 qid obsVersion b =
      Except.error CoreError.ConflictError := by
    have hne : ¬ q3.version = obsVersion := by omega
    unfold logWorkout
    rw [hfind1]
    simp [hne]
  have hst3 : q3.status = QuestStatus.completed := by rw [hq3]
  have hlog3 : logWorkout p s1 qid (obsVersion + 1) b =
      Except.error CoreError.InvalidStateError := by
    unfold logWorkout
    rw [hfind1]
    simp [hv3, applyWorkout, hst3, hver]
  exact ⟨s1, by simp [handleWorkout, hlog1], by simp [handleWorkout, hlog2],
    by simp [handleWorkout, hlog3]⟩

/-- Witness for C7: the example store with the active quest at
progress 6 of 10, two submissions of 6 and 7, both completing. -/
theorem concurrent_completion_single_reward_witness :
    (exampleStoreActive.quests.find? (fun x => x.id == 1) =
        some exampleActiveQuest ∧
      exampleActiveQuest.status = QuestStatus.active ∧
      exampleActiveQuest.version = 0 ∧
      0 < 6 ∧
      exampleActiveQuest.target_value ≤ exampleActiveQuest.current_progress + 6 ∧
      0 < 7 ∧
      exampleActiveQuest.target_value ≤ exampleActiveQuest.current_progress + 7) ∧
    (∃ s1 : Store,
      handleWorkout exampleParams exampleStoreActive 1 0 6 = (s1, true, none) ∧
      handleWorkout exampleParams s1 1 0 7 =
        (s1, false, some CoreError.ConflictError) ∧
      handleWorkout exampleParams s1 1 (0 + 1) 7 =
        (s1, false, some CoreError.InvalidStateError)) :=
  ⟨⟨rfl, rfl, rfl, by norm_num, by decide, by norm_num, by decide⟩,
    concurrent_completion_single_reward exampleParams exampleStoreActive 1 0 6 7
      exampleActiveQuest rfl rfl rfl (by norm_num) (by decide) (by norm_num)
      (by decide)⟩

/-- C5: generateDaily with a non-empty catalog returns exactly 3 quest
instances, each drawn (with replacement) from the catalog, with
current_progress 0 and active status; with an empty catalog it fails
with ValidationError, creating zero instances. -/
theorem generateDaily_spec (catalog : List QuestTemplate) (draw : Nat → Nat) :
    (catalog ≠ [] →
      ∃ l, generateDaily catalog draw = Except.ok l ∧ l.length = 3 ∧
        ∀ inst ∈ l, inst.current_progress = 0 ∧
          inst.status = QuestStatus.active ∧
          ∃ t ∈ catalog, inst.exercise_type = t.exercise_type ∧
            inst.target_value = t.target_value ∧
            inst.xp_reward = t.xp_reward ∧ inst.gold_reward = t.gold_reward) ∧
    (catalog = [] →
      generateDaily catalog draw = Except.error CoreError.ValidationError) := by
  constructor
  · intro hne
    have hempty : catalog.isEmpty = false := by
      simp [List.isEmpty_iff, hne]
    refine ⟨(List.range 3).map (fun i =>
        instantiate (catalog.getD (draw i % catalog.length) default) i),
      by simp [generateDaily, hempty], by simp, ?_⟩
    intro inst hinst
    obtain ⟨i, _, rfl⟩ := List.mem_map.mp hinst
    have hlen : 0 < catalog.length := List.length_pos.mpr hne
    have hidx : draw i % catalog.length < catalog.length := Nat.mod_lt _ hlen
    refine ⟨rfl, rfl, catalog.getD (draw i % catalog.length) default,
      ?_, rfl, rfl, rfl, rfl⟩
    rw [List.getD_eq_getElem _ _ hidx]
    exact List.getElem_mem hidx
  · intro hcat
    subst hcat
    rfl

/-- Witness for C5: a singleton catalog produces the 3 instances, and
the empty catalog is rejected. -/
theorem generateDaily_spec_witness :
    (exampleCatalog ≠ [] ∧
      ∃ l, generateDaily exampleCatalog (fun i => i) = Except.ok l ∧
        l.length = 3 ∧
        ∀ inst ∈ l, inst.current_progress = 0 ∧
          inst.status = QuestStatus.active ∧
          ∃ t ∈ exampleCatalog, inst.exercise_type = t.exercise_type ∧
            inst.target_value = t.target_value ∧
            inst.xp_reward = t.xp_reward ∧ inst.gold_reward = t.gold_reward) ∧
    generateDaily ([] : List QuestTemplate) (fun i => i) =
      Except.error CoreError.ValidationError := by
  have hne : exampleCatalog ≠ [] := by simp [exampleCatalog]
  exact ⟨⟨hne, (generateDaily_spec exampleCatalog (fun i => i)).1 hne⟩,
    (generateDaily_spec ([] : List QuestTemplate) (fun i => i)).2 rfl⟩

/-- An already completed record is inert apart from the monotone
progress field: completion stays, the unlock timestamp is frozen, and
no further reward is emitted. -/
lemma updateAchievement_completed (mode : ReqMode) (a : Achievement)
    (ua : UserAchievementProgress) (contrib now : Nat)
    (h : ua.completed = true) :
    updateAchievement mode a ua contrib now =
      ({ ua with
         current_progress := applyProgress mode ua.current_progress contrib },
        none) := by
  simp [updateAchievement, h]

/-- A trace of updates starting after completion emits no reward and
keeps completed and unlocked_at. -/
lemma runUpdates_completed (a : Achievement) :
    ∀ (us : List (ReqMode × Nat × Nat)) (ua : UserAchievementProgress),
      ua.completed = true →
      (runUpdates a us ua).1.completed = true ∧
      (runUpdates a us ua).1.unlocked_at = ua.unlocked_at ∧
      (runUpdates a us ua).2 = 0 := by
  intro us
  induction us with
  | nil => intro ua h; exact ⟨h, rfl, rfl⟩
  | cons u rest ih =>
    intro ua h
    obtain ⟨m, c, t⟩ := u
    have hstep := updateAchievement_completed m a ua c t h
    simp only [runUpdates, hstep]
    have h2 := ih { ua with
      current_progress := applyProgress m ua.current_progress c } h
    exact ⟨h2.1, h2.2.1, by simp [h2.2.2]⟩

/-- Over a trace starting from a not-yet-completed record, the number
of emitted rewards is 0 while the record stays incomplete and exactly
1 once it completes: the reward is emitted exactly once, on the single
false-to-true edge. -/
lemma runUpdates_count (a : Achievement) :
    ∀ (us : List (ReqMode × Nat × Nat)) (ua : UserAchievementProgress),
      ua.completed = false →
      (runUpdates a us ua).2 =
        (if (runUpdates a us ua).1.completed = true then 1 else 0) := by
  intro us
  induction us with
  | nil => intro ua h; simp [runUpdates, h]
  | cons u rest ih =>
    intro ua h
    obtain ⟨m, c, t⟩ := u
    by_cases hedge : a.requirement_value ≤ applyProgress m ua.current_progress c
    · have hstep : updateAchievement m a ua c t =
          ({ current_progress := applyProgress m ua.current_progress c,
             completed := true, unlocked_at := some t },
            some ⟨a.xp_reward, a.gold_reward⟩) := by
        simp [updateAchievement, hedge, h]
      have hrest := runUpdates_completed a rest
        { current_progress := applyProgress m ua.current_progress c,
          completed := true, unlocked_at := some t } rfl
      simp only [runUpdates, hstep]
      simp [hrest.1, hrest.2.2]
    · have hstep : updateAchievement m a ua c t =
          ({ ua with
             current_progress := applyProgress m ua.current_progress c },
            none) := by
        simp [updateAchievement, hedge]
      have h2 := ih { ua with
        current_progress := applyProgress m ua.current_progress c } h
      simp only [runUpdates, hstep]
      simpa using h2

/-- C6: completed transitions false to true at most once and is never
reversed; unlocked_at is stamped exactly at that transition; the
achievement reward is emitted exactly once, on the false-to-true edge
of a trace; progress is monotone; and re-running the same threshold
update after completion is a no-op. -/
theorem achievement_unlock_once (mode : ReqMode) (a : Achievement)
    (ua : UserAchievementProgress) (contrib now : Nat)
    (us : List (ReqMode × Nat × Nat)) (ua0 : UserAchievementProgress)
    (hfresh : ua0.completed = false) :
    ua.current_progress ≤
      (updateAchievement mode a ua contrib now).1.current_progress ∧
    (ua.completed = true →
      (updateAchievement mode a ua contrib now).1.completed = true ∧
      (updateAchievement mode a ua contrib now).1.unlocked_at = ua.unlocked_at ∧
      (updateAchievement mode a ua contrib now).2 = none) ∧
    (ua.completed = false →
      a.requirement_value ≤ applyProgress mode ua.current_progress contrib →
      (updateAchievement mode a ua contrib now).1.completed = true ∧
      (updateAchievement mode a ua contrib now).1.unlocked_at = some now ∧
      (updateAchievement mode a ua contrib now).2 =
        some ⟨a.xp_reward, a.gold_reward⟩) ∧
    (ua.completed = true → mode = ReqMode.threshold →
      contrib ≤ ua.current_progress →
      updateAchievement mode a ua contrib now = (ua, none)) ∧
    (runUpdates a us ua0).2 =
      (if (runUpdates a us ua0).1.completed = true then 1 else 0) := by
  have hmono : ua.current_progress ≤
      applyProgress mode ua.current_progress contrib := by
    cases mode <;> simp [applyProgress] <;> omega
  refine ⟨?_, ?_, ?_, ?_, runUpdates_count a us ua0 hfresh⟩
  · by_cases hcond : a.requirement_value ≤
        applyProgress mode ua.current_progress contrib ∧ ua.completed = false
    · simpa [updateAchievement, hcond] using hmono
    · simpa [updateAchievement, hcond] using hmono
  · intro hc
    rw [updateAchievement_completed mode a ua contrib now hc]
    exact ⟨hc, rfl, rfl⟩
  · intro hc hedge
    simp [updateAchievement, hc, hedge]
  · intro hc hmode hcontrib
    rw [updateAchievement_completed mode a ua contrib now hc, hmode]
    simp [applyProgress, Nat.max_eq_left hcontrib]

/-- Witness for C6 at a concrete record: progress 4, requirement 10,
one threshold update of 10 completes it, and the two-step trace emits
exactly one reward. -/
theorem achievement_unlock_once_witness :
    exampleUaFresh.completed = false ∧
    (exampleUaFresh.current_progress ≤
      (updateAchievement ReqMode.threshold exampleAchievement exampleUaFresh
        10 7).1.current_progress ∧
    (exampleUaFresh.completed = true →
      (updateAchievement ReqMode.threshold exampleAchievement exampleUaFresh
        10 7).1.completed = true ∧
      (updateAchievement ReqMode.threshold exampleAchievement exampleUaFresh
        10 7).1.unlocked_at = exampleUaFresh.unlocked_at ∧
      (updateAchievement ReqMode.threshold exampleAchievement exampleUaFresh
        10 7).2 = none) ∧
    (exampleUaFresh.completed = false →
      exampleAchievement.requirement_value ≤
        applyProgress ReqMode.threshold exampleUaFresh.current_progress 10 →
      (updateAchievement ReqMode.threshold exampleAchievement exampleUaFresh
        10 7).1.completed = true ∧
      (updateAchievement ReqMode.threshold exampleAchievement exampleUaFresh
        10 7).1.unlocked_at = some 7 ∧
      (updateAchievement ReqMode.threshold exampleAchievement exampleUaFresh
        10 7).2 = some ⟨exampleAchievement.xp_reward,
          exampleAchievement.gold_reward⟩) ∧
    (exampleUaFresh.completed = true → ReqMode.threshold = ReqMode.threshold →
      10 ≤ exampleUaFresh.current_progress →
      updateAchievement ReqMode.threshold exampleAchievement exampleUaFresh
        10 7 = (exampleUaFresh, none)) ∧
    (runUpdates exampleAchievement
      [(ReqMode.threshold, 10, 7), (ReqMode.threshold, 10, 8)]
      exampleUaFresh).2 =
      (if (runUpdates exampleAchievement
        [(ReqMode.threshold, 10, 7), (ReqMode.threshold, 10, 8)]
        exampleUaFresh).1.completed = true then 1 else 0)) :=
  ⟨rfl, achievement_unlock_once ReqMode.threshold exampleAchievement
    exampleUaFresh 10 7
    [(ReqMode.threshold, 10, 7), (ReqMode.threshold, 10, 8)]
    exampleUaFresh rfl⟩

/-- One applyReward call keeps the avatar tier equal to the breakpoint
function of the level, and keeps the threshold positive. -/
lemma applyReward_tier (p : Params) (hc : ∀ l, 0 < p.curve l)
    (u : UserProgression) (r : RewardEvent)
    (htonl : 0 < u.xp_to_next_level)
    (hinv : u.avatar_tier = p.tierOf u.level) :
    (applyReward p u r).avatar_tier = p.tierOf (applyReward p u r).level ∧
    0 < (applyReward p u r).xp_to_next_level := by
  obtain ⟨k, h1, _, _, h4, _, _, _, _, _, _, h11⟩ :=
    levelLoop_spec p hc (u.xp + r.xp + 1)
      { u with xp := u.xp + r.xp, gold := u.gold + r.gold,
               total_quests_completed := u.total_quests_completed + 1 }
      (by simp) (by simpa using htonl)
  simp only at h1 h4 h11
  constructor
  · show (levelLoop p (u.xp + r.xp + 1)
      { u with xp := u.xp + r.xp, gold := u.gold + r.gold,
               total_quests_completed := u.total_quests_completed + 1 }).avatar_tier =
      p.tierOf ((levelLoop p (u.xp + r.xp + 1)
        { u with xp := u.xp + r.xp, gold := u.gold + r.gold,
                 total_quests_completed := u.total_quests_completed + 1 }).level)
    rw [h11, h1]
    by_cases hk : k = 0
    · subst hk
      simpa using hinv
    · rw [if_neg hk]
  · show 0 < (levelLoop p (u.xp + r.xp + 1)
      { u with xp := u.xp + r.xp, gold := u.gold + r.gold,
               total_quests_completed := u.total_quests_completed + 1 }).xp_to_next_level
    rw [h4]
    by_cases hk : k = 0
    · subst hk; simpa using htonl
    · rw [if_neg hk]; exact hc _

/-- C8: in every state reachable by reward applications from a state
whose avatar tier agrees with the breakpoint function of its level,
the avatar tier still equals that fixed pure function of the level:
it is recomputed on every level change and cannot desynchronize. -/
theorem avatar_tier_pure_of_level (p : Params) (u : UserProgression)
    (rs : List RewardEvent) (hc : ∀ l, 0 < p.curve l)
    (htonl : 0 < u.xp_to_next_level)
    (hinv : u.avatar_tier = p.tierOf u.level) :
    (rs.foldl (applyReward p) u).avatar_tier =
      p.tierOf ((rs.foldl (applyReward p) u).level) := by
  induction rs generalizing u with
  | nil => exact hinv
  | cons r rest ih =>
    have h := applyReward_tier p hc u r htonl hinv
    exact ih (applyReward p u r) h.2 h.1

/-- Witness for C8: two consecutive rewards on the example user. -/
theorem avatar_tier_pure_of_level_witness :
    ((∀ l, 0 < exampleParams.curve l) ∧ 0 < exampleUser.xp_to_next_level ∧
      exampleUser.avatar_tier = exampleParams.tierOf exampleUser.level) ∧
    ([exampleReward, exampleReward].foldl (applyReward exampleParams)
        exampleUser).avatar_tier =
      exampleParams.tierOf (([exampleReward, exampleReward].foldl
        (applyReward exampleParams) exampleUser).level) := by
  have hc : ∀ l, 0 < exampleParams.curve l := by
    intro l
    simp only [exampleParams]
    positivity
  exact ⟨⟨hc, by decide, by decide⟩,
    avatar_tier_pure_of_level exampleParams exampleUser
      [exampleReward, exampleReward] hc (by decide) (by decide)⟩

/-- C9: the validation of submitWorkout issues the workout-log request
only when a quest is selected and the input string parses (with the
JavaScript parseInt semantics) to an integer strictly greater than 0;
for an empty, non-numeric, zero or negative input it shows an error
alert and issues no request, leaving all state untouched. -/
theorem submitWorkout_validation (selectedQuest : Option QuestInstance)
    (workoutValue : String) :
    (∀ qid v, submitWorkout selectedQuest workoutValue =
        SubmitOutcome.sendRequest qid v →
      ∃ quest, selectedQuest = some quest ∧ qid = quest.id ∧
        parseIntJS workoutValue = some v ∧ 0 < v) ∧
    ((selectedQuest = none ∨ workoutValue = "" ∨
        parseIntJS workoutValue = none ∨
        (∃ v, parseIntJS workoutValue = some v ∧ v ≤ 0)) →
      ∃ msg, submitWorkout selectedQuest workoutValue =
        SubmitOutcome.errorAlert msg) := by
  constructor
  · intro qid v hreq
    cases hq : selectedQuest with
    | none => rw [hq] at hreq; simp [submitWorkout] at hreq
    | some quest =>
      rw [hq] at hreq
      by_cases hemp : workoutValue = ""
      · simp [submitWorkout, hemp] at hreq
      · cases hp : parseIntJS workoutValue with
        | none => simp [submitWorkout, hemp, hp] at hreq
        | some w =>
          by_cases hle : w ≤ 0
          · simp [submitWorkout, hemp, hp, hle] at hreq
          · have heq : submitWorkout (some quest) workoutValue =
                SubmitOutcome.sendRequest quest.id w := by
              simp [submitWorkout, hemp, hp, hle]
            rw [heq] at hreq
            injection hreq with hq1 hq2
            exact ⟨quest, rfl, hq1.symm, by rw [hq2], by omega⟩
  · intro hbad
    cases selectedQuest with
    | none => exact ⟨AlertMsg.enterWorkoutValue, rfl⟩
    | some quest =>
      by_cases hemp : workoutValue = ""
      · exact ⟨AlertMsg.enterWorkoutValue, by simp [submitWorkout, hemp]⟩
      · rcases hbad with hnone | hempty | hpn | ⟨v, hpv, hv⟩
        · exact absurd hnone (by simp)
        · exact absurd hempty hemp
        · exact ⟨AlertMsg.enterValidNumber, by simp [submitWorkout, hemp, hpn]⟩
        · exact ⟨AlertMsg.enterValidNumber,
            by simp [submitWorkout, hemp, hpv, hv]⟩

/-- Witness for C9: the input 12 with a selected quest issues the
request with value 12, and the negative input rejects with an alert. -/
theorem submitWorkout_validation_witness :
    (submitWorkout (some exampleActiveQuest) "12" =
        SubmitOutcome.sendRequest 1 12 ∧
      (∃ quest, some exampleActiveQuest = some quest ∧ (1 : Nat) = quest.id ∧
        parseIntJS "12" = some 12 ∧ (0 : Int) < 12)) ∧
    ((∃ v, parseIntJS "-5" = some v ∧ v ≤ 0) ∧
      ∃ msg, submitWorkout (some exampleActiveQuest) "-5" =
        SubmitOutcome.errorAlert msg) := by
  refine ⟨⟨by decide, ?_⟩, ⟨⟨-5, by decide, by decide⟩, ?_⟩⟩
  · exact (submitWorkout_validation (some exampleActiveQuest) "12").1 1 12
      (by decide)
  · exact (submitWorkout_validation (some exampleActiveQuest) "-5").2
      (Or.inr (Or.inr (Or.inr ⟨-5, by decide, by decide⟩)))

/-- C10: the XP bar fill of the Quest Board and Hunter Profile
screens: the denominator xp + (xp_to_next_level or 100) is strictly
positive for every user value, including a missing user and zero
fields, so the width is a well-defined percentage in the interval from
0 inclusive to 100 exclusive. -/
theorem xpBarWidth_bounded (u : Option UserView) :
    0 < xpDenom u ∧ 0 ≤ xpBarWidth u ∧ xpBarWidth u < 100 := by
  have hd : 0 < xpToNextOr100 u := by
    cases u with
    | none => norm_num [xpToNextOr100]
    | some uu =>
      by_cases h : uu.xp_to_next_level = 0 <;> simp [xpToNextOr100, h] <;> omega
  have hden : 0 < xpDenom u := by
    unfold xpDenom
    omega
  have hlt : (xpOrZero u : ℚ) < (xpDenom u : ℚ) := by
    have hn : xpOrZero u < xpDenom u := by
      unfold xpDenom
      omega
    exact_mod_cast hn
  have hdq : (0 : ℚ) < (xpDenom u : ℚ) := by exact_mod_cast hden
  refine ⟨hden, ?_, ?_⟩
  · unfold xpBarWidth
    positivity
  · unfold xpBarWidth
    have h1 : (xpOrZero u : ℚ) / (xpDenom u : ℚ) < 1 := (div_lt_one hdq).mpr hlt
    calc (xpOrZero u : ℚ) / (xpDenom u : ℚ) * 100 < 1 * 100 := by
          exact mul_lt_mul_of_pos_right h1 (by norm_num)
      _ = 100 := by norm_num
